import Mathlib

/-!
Verification development for the metrics snapshot pipeline
(`src/metrics_snapshot_spider.py`): a one-shot batch job that walks a
paginated listing, extracts per-entity metric fields from detail pages,
buffers records, and persists them into a keyed sqlite table with
`INSERT OR REPLACE`, draining the buffer on shutdown.

Python strings are modelled as `List Char`; `str.strip()` is modelled by
`pyStrip` (whitespace removal at both ends).  Machine behaviour that is
external (HTTP fetching, sqlite transport) is modelled as explicit inputs:
a detail document is the function from an XPath locator string to its
resolution result, and the success of a database write is an explicit
boolean parameter of the flush step.
-/

namespace MetricsSnapshot

/-- Model of `str.strip()` on the leading side: drop leading whitespace. -/
def dropLeadingWS (l : List Char) : List Char := l.dropWhile Char.isWhitespace

/-- Model of `str.strip()` on the trailing side: drop trailing whitespace. -/
def dropTrailingWS (l : List Char) : List Char :=
  (l.reverse.dropWhile Char.isWhitespace).reverse

/-- Python `str.strip()`: remove whitespace from both ends. -/
def pyStrip (l : List Char) : List Char := dropLeadingWS (dropTrailingWS l)

/-- Python `s.endswith(t)`. -/
def pyEndsWith (l t : List Char) : Bool := t.isSuffixOf l

/-- The sentinel `"N/A"` as a character list. -/
def sentinel : List Char := ['N', '/', 'A']

/--
The function `MetricsSnapshotSpider._with_pct` (the spec's `normalize_percentage`):
`s = (s or "").strip(); if not s or s == "N/A": return "N/A";
return s if s.endswith("%") else s + "%"`.
A `None` argument behaves as `""` (via `s or ""`), so the input is a string.
-/
def _with_pct (s : List Char) : List Char :=
  let t := pyStrip s
  if t = [] ∨ t = sentinel then sentinel
  else if pyEndsWith t ['%'] then t else t ++ ['%']

/-- Result of resolving an XPath locator against a response:
`resp.xpath(xp).get()` either raises, returns `None`, or returns a string. -/
inductive XPathResult where
  | raised : XPathResult
  | absent : XPathResult
  | text : List Char → XPathResult
deriving DecidableEq, Repr

/-- A detail document, observed through XPath resolution (the only way
`parse_detail` touches it). -/
def DetailDoc : Type := List Char → XPathResult

/--
The function `MetricsSnapshotSpider._get` (the spec's `FieldExtractor.extract`):
`try: v = resp.xpath(xp).get(); return v.strip() if v else "N/A"
 except Exception: return "N/A"`.
Note the truthiness test `if v` happens before stripping: an empty string
result gives the sentinel, while a whitespace-only string is stripped. -/
def _get (doc : DetailDoc) (xp : List Char) : List Char :=
  match doc xp with
  | .raised => sentinel
  | .absent => sentinel
  | .text v => if v = [] then sentinel else pyStrip v

/-- One persisted row of the `metrics_snapshot` table, and equally one
buffered tuple of `parse_detail` (the tuple column order of the source's
`INSERT` statement). -/
structure SnapshotRecord where
  target_date : List Char
  code : List Char
  sector : List Char
  name : List Char
  price_text : List Char
  pe : List Char
  dividend_yield : List Char
  pb : List Char
  roe : List Char
  earning_yield : List Char
deriving DecidableEq, Repr

/-- The `UNIQUE(code, target_date)` key of the table: two rows collide
exactly when both key columns agree. -/
def keyMatches (q r : SnapshotRecord) : Bool :=
  q.code == r.code && q.target_date == r.target_date

/-- One `INSERT OR REPLACE` of a single row: every row colliding on the
`(code, target_date)` key is deleted and the new row is inserted. -/
def upsertRow (store : List SnapshotRecord) (r : SnapshotRecord) :
    List SnapshotRecord :=
  store.filter (fun q => ! keyMatches q r) ++ [r]

/-- Model of `cur.executemany("INSERT OR REPLACE ...", rows)`: the single-row upsert
applied to each tuple in order. -/
def upsert_many (store : List SnapshotRecord) (rs : List SnapshotRecord) :
    List SnapshotRecord :=
  rs.foldl upsertRow store

/--
The spider's mutable state.  `buf` is `self._buf`, `parsed` is
`self._parsed`, `queued` is `self._queued`.  `store` is the current row set
of the `metrics_snapshot` table; `written` is the observation log of every
tuple handed to a successful `executemany` during this invocation (the rows
the store has received from this run).  `connOpen` tracks the sqlite
connection handle; `schemaEnsured` records that `_init_db` ran its
`CREATE TABLE IF NOT EXISTS`.
-/
structure SpiderState where
  target_date : Option (List Char)
  batch_size : Nat
  buf : List SnapshotRecord
  store : List SnapshotRecord
  written : List SnapshotRecord
  parsed : Nat
  queued : Nat
  connOpen : Bool
  schemaEnsured : Bool
deriving DecidableEq, Repr

/-- The `batch_size` normalization of `__init__`:
`int(batch_size) if batch_size else 50`, non-positive or unparsable values
fall back to 50.  `none` stands for an absent, falsy, or unparsable
argument. -/
def normBatchSize : Option Int → Nat
  | none => 50
  | some n => if n ≤ 0 then 50 else n.toNat

/--
The constructor `MetricsSnapshotSpider.__init__` together with `_init_db`: stores the (as
yet unvalidated) target date, normalizes `batch_size`, opens the sqlite
connection, ensures the schema (`CREATE TABLE IF NOT EXISTS`, leaving
existing rows `store0` untouched), and initializes the empty buffer and the
zero counters.  All of this happens before any date validation.
-/
def mkSpider (td : Option (List Char)) (bs : Option Int)
    (store0 : List SnapshotRecord) : SpiderState :=
  { target_date := td
  , batch_size := normBatchSize bs
  , buf := []
  , store := store0
  , written := []
  , parsed := 0
  , queued := 0
  , connOpen := true
  , schemaEnsured := true }

/-- Decimal value of a digit string. -/
def digitsVal (l : List Char) : Nat :=
  l.foldl (fun a c => a * 10 + (c.toNat - 48)) 0

def isLeapYear (y : Nat) : Bool :=
  (y % 4 == 0 && y % 100 != 0) || y % 400 == 0

def daysInMonth (y m : Nat) : Nat :=
  if m = 2 then (if isLeapYear y then 29 else 28)
  else if m = 4 ∨ m = 6 ∨ m = 9 ∨ m = 11 then 30 else 31

/-- One candidate split of the post-year digits into month and day, as
accepted by CPython `strptime`'s `%m`/`%d` patterns (1 or 2 digits each,
month 1..12, day valid for the month) — the `datetime` constructor then
checks the day against the month length. -/
def validMonthDay (y : Nat) (m d : List Char) : Bool :=
  decide (1 ≤ m.length ∧ m.length ≤ 2 ∧ 1 ≤ d.length ∧ d.length ≤ 2 ∧
    1 ≤ digitsVal m ∧ digitsVal m ≤ 12 ∧
    1 ≤ digitsVal d ∧ digitsVal d ≤ daysInMonth y (digitsVal m))

/--
Model of `datetime.strptime(s, "%Y%m%d")` succeeding: all digits, a 4-digit
year (at least 1), and the remaining 1–4 digits splitting (with regex
backtracking, i.e. some split works) into a valid month and day.
-/
def validYYYYMMDD (s : List Char) : Bool :=
  decide (s.all Char.isDigit = true ∧ 6 ≤ s.length ∧ s.length ≤ 8 ∧
    1 ≤ digitsVal (s.take 4) ∧
    (validMonthDay (digitsVal (s.take 4)) ((s.drop 4).take 1) ((s.drop 4).drop 1) = true ∨
     validMonthDay (digitsVal (s.take 4)) ((s.drop 4).take 2) ((s.drop 4).drop 2) = true))

def start_urls : List String := ["https://example.com/markets/list/"]

/--
The generator `MetricsSnapshotSpider.start_requests`: raises `ValueError` (modelled as
`.error ()`) when `target_date` is falsy (`None` or empty) or when
`strptime` rejects it; otherwise yields one listing request per start URL.
No request — hence no network activity — is produced on the error paths.
-/
def start_requests (s : SpiderState) : Except Unit (List String) :=
  match s.target_date with
  | none => .error ()
  | some d =>
    if d = [] then .error ()
    else if validYYYYMMDD d then .ok start_urls
    else .error ()

/-- One `<tr>` of the listing table, observed through the three row-local
XPath lookups of `parse_list` (`td[1]//text()`, `td[2]//text()`,
`td[2]//a/@href`); `none` stands for a lookup yielding `None`. -/
structure ListingRow where
  code : Option (List Char)
  name : Option (List Char)
  detail_href : Option (List Char)
deriving DecidableEq, Repr

/-- A listing page: its rows plus the result of the `Next` link lookup. -/
structure ListingDoc where
  rows : List ListingRow
  next_href : Option (List Char)
deriving DecidableEq, Repr

/-- Python truthiness of an optional string: `None` and `""` are falsy. -/
def truthy : Option (List Char) → Bool
  | none => false
  | some s => ! s.isEmpty

/-- A queued detail request: the stub `(code, name, detail location)`
carried in `meta` by `parse_list`. -/
structure DetailRequest where
  code : List Char
  name : List Char
  href : List Char
deriving DecidableEq, Repr

/-- The per-row body of `parse_list`: a row yields a detail request exactly
when `code and name and detail_href` is truthy (all present and
non-empty). -/
def rowRequest (row : ListingRow) : Option DetailRequest :=
  match row.code, row.name, row.detail_href with
  | some c, some n, some h =>
    if c = [] ∨ n = [] ∨ h = [] then none else some ⟨c, n, h⟩
  | none, _, _ => none
  | some _, none, _ => none
  | some _, some _, none => none

/--
The callback `MetricsSnapshotSpider.parse_list`: iterates the rows in order yielding a
detail request per qualifying row, then follows the `Next` link if present.
(`self._queued` grows by the number of yielded requests; URL joining is
performed by the framework and left abstract.)
-/
def parse_list (doc : ListingDoc) : List DetailRequest × Option (List Char) :=
  (doc.rows.filterMap rowRequest, doc.next_href)

/-- The XPath locators of `parse_detail`, verbatim from the source. -/
def xpSector : List Char := "//*[@id=\"main\"]//span[@class=\"category\"]/text()".data

def xpPrice : List Char := "//*[@id=\"main\"]//div[@class=\"price\"]/text()".data

def xpPe : List Char := "//*[@id=\"metrics\"]//li[@data-key=\"pe\"]/span/text()".data

def xpDivYld : List Char := "//*[@id=\"metrics\"]//li[@data-key=\"div_yld\"]/span/text()".data

def xpPb : List Char := "//*[@id=\"metrics\"]//li[@data-key=\"pb\"]/span/text()".data

def xpRoe : List Char := "//*[@id=\"metrics\"]//li[@data-key=\"roe\"]/span/text()".data

def xpEarnYld : List Char := "//*[@id=\"metrics\"]//li[@data-key=\"earn_yld\"]/span/text()".data

/-- The extraction half of `parse_detail` (the spec's
`SnapshotRecordBuilder.build`): one `_get` per field, `_with_pct` on exactly
the three percentage fields, assembled in the buffer tuple's column
order. -/
def buildRecord (td : List Char) (code name : List Char) (doc : DetailDoc) :
    SnapshotRecord :=
  { target_date := td
  , code := code
  , sector := _get doc xpSector
  , name := name
  , price_text := _get doc xpPrice
  , pe := _get doc xpPe
  , dividend_yield := _with_pct (_get doc xpDivYld)
  , pb := _get doc xpPb
  , roe := _with_pct (_get doc xpRoe)
  , earning_yield := _with_pct (_get doc xpEarnYld) }

/--
The method `MetricsSnapshotSpider._flush`: no-op on an empty buffer; otherwise one
`executemany` upsert of every pending tuple followed by `commit` and
`self._buf.clear()`.  `writeOk` is whether the database write succeeds; on
failure the exception propagates (the returned flag) before the buffer is
cleared, so the pending tuples stay in the buffer and the committed row set
is unchanged.
-/
def _flush (s : SpiderState) (writeOk : Bool) : SpiderState × Bool :=
  if s.buf.isEmpty then (s, false)
  else if writeOk then
    ({ s with store := upsert_many s.store s.buf
            , written := s.written ++ s.buf
            , buf := [] }, false)
  else (s, true)

/-- The buffering half of `parse_detail` (lines 137–147): append the built
tuple, bump `self._parsed`, and flush when the buffer has reached
`batch_size`.  Database writes are modelled as succeeding here; the failure
path is analyzed on `_flush` itself. -/
def appendRecord (s : SpiderState) (r : SnapshotRecord) : SpiderState :=
  let s1 := { s with buf := s.buf ++ [r], parsed := s.parsed + 1 }
  if s.batch_size ≤ s1.buf.length then (_flush s1 true).1 else s1

/-- The callback `MetricsSnapshotSpider.parse_detail`: build the record from the detail
document and run the append-with-conditional-flush step. -/
def parse_detail (s : SpiderState) (code name : List Char) (doc : DetailDoc) :
    SpiderState :=
  appendRecord s (buildRecord (s.target_date.getD []) code name doc)

/--
The hook `MetricsSnapshotSpider.closed`: for any termination `reason`, `try`
flush-the-buffer, `finally` close the connection (swallowing close errors).
Even when the final write fails, the handle is released.
-/
def closed (s : SpiderState) (_reason : List Char) (writeOk : Bool) :
    SpiderState :=
  let s1 := (_flush s writeOk).1
  { s1 with connOpen := false }

end MetricsSnapshot

namespace MetricsSnapshot

/-! ### Stripping lemmas -/

theorem dropWhile_of_head_neg {p : Char → Bool} {a : Char} {l : List Char}
    (h : ¬ p a) : (a :: l).dropWhile p = a :: l := by
  simp [List.dropWhile_cons, h]

theorem dropWhile_idem (p : Char → Bool) (l : List Char) :
    (l.dropWhile p).dropWhile p = l.dropWhile p := by
  cases h : l.dropWhile p with
  | nil => rfl
  | cons a t =>
    have ha : ¬ p a := by
      have hl : 0 < (l.dropWhile p).length := by rw [h]; simp
      have := List.dropWhile_get_zero_not p l hl
      simpa [h] using this
    exact dropWhile_of_head_neg ha

theorem head_dropLeadingWS_not_ws {l : List Char} {a : Char} {t : List Char}
    (h : dropLeadingWS l = a :: t) : ¬ a.isWhitespace := by
  have hl : 0 < (l.dropWhile Char.isWhitespace).length := by
    unfold dropLeadingWS at h; rw [h]; simp
  have := List.dropWhile_get_zero_not Char.isWhitespace l hl
  unfold dropLeadingWS at h
  simpa [h] using this

/-- A stripped, nonempty string starts with a non-whitespace character. -/
theorem pyStrip_head_not_ws {l : List Char} {a : Char} {t : List Char}
    (h : pyStrip l = a :: t) : ¬ a.isWhitespace :=
  head_dropLeadingWS_not_ws h

theorem dropLeadingWS_idem (l : List Char) :
    dropLeadingWS (dropLeadingWS l) = dropLeadingWS l :=
  dropWhile_idem _ l

/-- Dropping trailing whitespace from a list that ends in a
non-whitespace character is the identity. -/
theorem dropTrailingWS_append_not_ws (l : List Char) {c : Char}
    (hc : ¬ c.isWhitespace) : dropTrailingWS (l ++ [c]) = l ++ [c] := by
  unfold dropTrailingWS
  rw [List.reverse_append, List.reverse_singleton, List.singleton_append,
    dropWhile_of_head_neg hc, List.reverse_cons, List.reverse_reverse]

/-- Stripping a stripped-nonempty string with `%` appended is the identity. -/
theorem pyStrip_strip_append_pct (s : List Char) (h : pyStrip s ≠ []) :
    pyStrip (pyStrip s ++ ['%']) = pyStrip s ++ ['%'] := by
  obtain ⟨a, t, hat⟩ : ∃ a t, pyStrip s = a :: t := by
    cases hs : pyStrip s with
    | nil => exact absurd hs h
    | cons a t => exact ⟨a, t, rfl⟩
  have ha : ¬ a.isWhitespace := pyStrip_head_not_ws hat
  have hpct : ¬ ('%').isWhitespace := by decide
  show dropLeadingWS (dropTrailingWS (pyStrip s ++ ['%'])) = pyStrip s ++ ['%']
  rw [dropTrailingWS_append_not_ws _ hpct, hat]
  exact dropWhile_of_head_neg ha

theorem head_dropWhile_neg {p : Char → Bool} {x : List Char} {a : Char}
    {t : List Char} (h : x.dropWhile p = a :: t) : ¬ p a := by
  have hl : 0 < (x.dropWhile p).length := by rw [h]; simp
  have := List.dropWhile_get_zero_not p x hl
  simpa [h] using this

theorem getLast?_of_suffix {s l : List Char} (hs : s <:+ l) (h : s ≠ []) :
    l.getLast? = s.getLast? := by
  obtain ⟨w, rfl⟩ := hs
  exact List.getLast?_append_of_ne_nil w h

theorem dropTrailingWS_getLast_not_ws {l : List Char} {a : Char}
    (h : (dropTrailingWS l).getLast? = some a) : ¬ a.isWhitespace := by
  have h1 : (dropTrailingWS l).getLast? = (l.reverse.dropWhile Char.isWhitespace).head? := by
    unfold dropTrailingWS
    have := List.head?_reverse (l.reverse.dropWhile Char.isWhitespace).reverse
    rw [List.reverse_reverse] at this
    exact this.symm
  rw [h1] at h
  cases hd : l.reverse.dropWhile Char.isWhitespace with
  | nil => rw [hd] at h; simp at h
  | cons b t =>
    rw [hd] at h
    simp only [List.head?_cons, Option.some.injEq] at h
    subst h
    exact head_dropWhile_neg hd

/-- A stripped, nonempty string ends with a non-whitespace character. -/
theorem pyStrip_getLast_not_ws {l : List Char} {a : Char}
    (h : (pyStrip l).getLast? = some a) : ¬ a.isWhitespace := by
  have hne : pyStrip l ≠ [] := by
    intro he; rw [he] at h; simp at h
  have hsuf : pyStrip l <:+ dropTrailingWS l := List.dropWhile_suffix _
  have := getLast?_of_suffix hsuf hne
  exact dropTrailingWS_getLast_not_ws (this ▸ h)

/-- Python `strip` is idempotent: stripping a stripped string changes nothing. -/
theorem pyStrip_idem (s : List Char) : pyStrip (pyStrip s) = pyStrip s := by
  cases hs : pyStrip s with
  | nil => rfl
  | cons a t =>
    have hne : (a :: t : List Char) ≠ [] := List.cons_ne_nil a t
    have hlast : (a :: t : List Char).getLast? = some ((a :: t).getLast hne) :=
      List.getLast?_eq_getLast _ hne
    have hlast_not_ws : ¬ ((a :: t).getLast hne).isWhitespace :=
      pyStrip_getLast_not_ws (l := s) (by rw [hs]; exact hlast)
    have hsplit : (a :: t).dropLast ++ [(a :: t).getLast hne] = a :: t :=
      List.dropLast_append_getLast hne
    have hdt : dropTrailingWS (a :: t) = a :: t := by
      conv_lhs => rw [← hsplit]
      rw [dropTrailingWS_append_not_ws _ hlast_not_ws, hsplit]
    have hhead : ¬ a.isWhitespace := pyStrip_head_not_ws hs
    show dropLeadingWS (dropTrailingWS (a :: t)) = a :: t
    rw [hdt]
    exact dropWhile_of_head_neg hhead

theorem pyEndsWith_append_pct (t : List Char) :
    pyEndsWith (t ++ ['%']) ['%'] = true := by
  unfold pyEndsWith
  rw [List.isSuffixOf_iff_suffix]
  exact List.suffix_append t ['%']

theorem append_pct_ne_sentinel (t : List Char) : t ++ ['%'] ≠ sentinel := by
  intro h
  have h1 : (t ++ ['%']).getLast? = some '%' := List.getLast?_concat t
  rw [h] at h1
  simp [sentinel] at h1

/-! ### C3, C4: percentage normalization -/

/--
C3 counterexample: `normalize_percentage` does NOT return an empty value
unchanged (it returns the sentinel), and it trims its input before appending
`%` (so the result is not always the original value with a `%` suffix).
-/
theorem with_pct_empty_and_trim_counterexample :
    _with_pct [] = sentinel ∧ sentinel ≠ ([] : List Char) ∧
    _with_pct [' ', '5'] = ['5', '%'] ∧ ['5', '%'] ≠ ([' ', '5', '%'] : List Char) := by
  refine ⟨by decide, by decide, by decide, by decide⟩

/--
C3 (amended): for every input to `normalize_percentage`, if the trimmed
value is empty or the sentinel `"N/A"`, the result is the sentinel (not the
original value); otherwise the result is the trimmed value with a `"%"`
suffix appended unless the trimmed value already ends with `"%"`.
-/
theorem with_pct_spec (s : List Char) :
    (pyStrip s = [] ∨ pyStrip s = sentinel → _with_pct s = sentinel) ∧
    (pyStrip s ≠ [] → pyStrip s ≠ sentinel →
      _with_pct s =
        (if pyEndsWith (pyStrip s) ['%'] then pyStrip s else pyStrip s ++ ['%'])) := by
  constructor
  · intro h
    unfold _with_pct
    simp only [if_pos h]
  · intro h1 h2
    unfold _with_pct
    have hor : ¬ (pyStrip s = [] ∨ pyStrip s = sentinel) := by
      rintro (h | h)
      · exact h1 h
      · exact h2 h
    simp only [if_neg hor]

theorem with_pct_spec_witness :
    _with_pct ['7'] = (if pyEndsWith (pyStrip ['7']) ['%'] then pyStrip ['7']
      else pyStrip ['7'] ++ ['%']) :=
  (with_pct_spec ['7']).2 (by decide) (by decide)

/--
C4 counterexample: the empty string is a non-sentinel input on which the
output of `normalize_percentage` does not end with `"%"`.
-/
theorem with_pct_pct_suffix_counterexample :
    ([] : List Char) ≠ sentinel ∧ _with_pct [] = sentinel ∧
    pyEndsWith sentinel ['%'] = false := by
  refine ⟨by decide, by decide, by decide⟩

/--
C4 (amended): for every input whose trimmed value is nonempty and not the
sentinel, the output of `normalize_percentage` ends with `"%"`; and for every
input, applying `normalize_percentage` twice equals applying it once.
-/
theorem with_pct_suffix_and_idem (s : List Char) :
    (pyStrip s ≠ [] → pyStrip s ≠ sentinel →
      pyEndsWith (_with_pct s) ['%'] = true) ∧
    _with_pct (_with_pct s) = _with_pct s := by
  constructor
  · intro h1 h2
    unfold _with_pct
    have hor : ¬ (pyStrip s = [] ∨ pyStrip s = sentinel) := by
      rintro (h | h)
      · exact h1 h
      · exact h2 h
    simp only [if_neg hor]
    by_cases he : pyEndsWith (pyStrip s) ['%'] = true
    · simp only [if_pos he]; exact he
    · simp only [if_neg he]
      exact pyEndsWith_append_pct _
  · by_cases h0 : pyStrip s = [] ∨ pyStrip s = sentinel
    · have h1 : _with_pct s = sentinel := by
        unfold _with_pct; simp only [if_pos h0]
      rw [h1]
      unfold _with_pct
      have hps : pyStrip sentinel = sentinel := by decide
      rw [hps]
      simp [sentinel]
    · have hne : pyStrip s ≠ [] := fun h => h0 (Or.inl h)
      by_cases he : pyEndsWith (pyStrip s) ['%'] = true
      · have h1 : _with_pct s = pyStrip s := by
          unfold _with_pct; simp only [if_neg h0, if_pos he]
        rw [h1]
        unfold _with_pct
        rw [pyStrip_idem s]
        simp only [if_neg h0, if_pos he]
      · have h1 : _with_pct s = pyStrip s ++ ['%'] := by
          unfold _with_pct; simp only [if_neg h0, if_neg he]
        rw [h1]
        unfold _with_pct
        rw [pyStrip_strip_append_pct s hne]
        have hor2 : ¬ (pyStrip s ++ ['%'] = [] ∨ pyStrip s ++ ['%'] = sentinel) := by
          rintro (h | h)
          · exact absurd h (by simp)
          · exact append_pct_ne_sentinel _ h
        simp only [if_neg hor2, if_pos (pyEndsWith_append_pct (pyStrip s))]

theorem with_pct_suffix_and_idem_witness :
    pyEndsWith (_with_pct ['7']) ['%'] = true :=
  (with_pct_suffix_and_idem ['7']).1 (by decide) (by decide)

/-! ### C8: field extraction -/

/--
C8: `extract` (the spider's `_get`) is total into strings — the model is a
Lean function, so it can never raise — and returns the sentinel `"N/A"`
whenever the locator raises during resolution or resolves to nothing
(`None` or the empty string), while a found (truthy) value is returned
trimmed.
-/
theorem get_sentinel_or_trimmed (doc : DetailDoc) (xp : List Char) :
    (doc xp = .raised → _get doc xp = sentinel) ∧
    (doc xp = .absent → _get doc xp = sentinel) ∧
    (doc xp = .text [] → _get doc xp = sentinel) ∧
    (∀ v, doc xp = .text v → v ≠ [] → _get doc xp = pyStrip v) := by
  refine ⟨?_, ?_, ?_, ?_⟩
  · intro h; unfold _get; rw [h]
  · intro h; unfold _get; rw [h]
  · intro h; unfold _get; rw [h]; rfl
  · intro v h hv; unfold _get; rw [h]; simp only [if_neg hv]

/-- A concrete detail document used to witness extraction behaviour. -/
def docW : DetailDoc := fun xp =>
  if xp = ['a'] then .text [' ', 'x', ' ']
  else if xp = ['b'] then .raised
  else if xp = ['c'] then .text []
  else .absent

theorem get_sentinel_or_trimmed_witness :
    _get docW ['b'] = sentinel ∧ _get docW ['z'] = sentinel ∧
    _get docW ['c'] = sentinel ∧ _get docW ['a'] = pyStrip [' ', 'x', ' '] :=
  ⟨(get_sentinel_or_trimmed docW ['b']).1 (by decide),
   (get_sentinel_or_trimmed docW ['z']).2.1 (by decide),
   (get_sentinel_or_trimmed docW ['c']).2.2.1 (by decide),
   (get_sentinel_or_trimmed docW ['a']).2.2.2 [' ', 'x', ' '] (by decide) (by decide)⟩

/-! ### C2: start-up validation and partial state -/

/--
C2 counterexample: with a missing target date the run does abort
(`start_requests` raises, so no request is issued), but partial state HAS
been created by then — `__init__` already opened the store connection and
ensured the schema before any validation ran.
-/
theorem config_error_partial_state_counterexample :
    start_requests (mkSpider none none []) = .error () ∧
    (mkSpider none none []).connOpen = true ∧
    (mkSpider none none []).schemaEnsured = true :=
  ⟨rfl, rfl, rfl⟩

/--
C2 (amended): for every run started with a missing or malformed target
date, `start_requests` raises before yielding any request (so no network
activity occurs and the error surfaces to the caller) and no rows have been
written; however the store connection is already open and the schema
already ensured, since both happen during construction, before validation.
-/
theorem invalid_date_aborts (td : Option (List Char)) (bs : Option Int)
    (st0 : List SnapshotRecord)
    (h : td = none ∨ ∃ d, td = some d ∧ (d = [] ∨ validYYYYMMDD d = false)) :
    start_requests (mkSpider td bs st0) = .error () ∧
    (mkSpider td bs st0).store = st0 ∧
    (mkSpider td bs st0).written = [] ∧
    (mkSpider td bs st0).buf = [] ∧
    (mkSpider td bs st0).connOpen = true ∧
    (mkSpider td bs st0).schemaEnsured = true := by
  refine ⟨?_, rfl, rfl, rfl, rfl, rfl⟩
  rcases h with h | ⟨d, hd, h⟩
  · subst h; rfl
  · subst hd
    by_cases he : d = []
    · simp [start_requests, mkSpider, he]
    · rcases h with h | h
      · exact absurd h he
      · simp [start_requests, mkSpider, he, h]

theorem invalid_date_aborts_witness :
    start_requests (mkSpider (some ['x']) none []) = .error () ∧
    (mkSpider (some ['x']) none []).store = [] ∧
    (mkSpider (some ['x']) none []).written = [] ∧
    (mkSpider (some ['x']) none []).buf = [] ∧
    (mkSpider (some ['x']) none []).connOpen = true ∧
    (mkSpider (some ['x']) none []).schemaEnsured = true :=
  invalid_date_aborts (some ['x']) none []
    (Or.inr ⟨['x'], rfl, Or.inr (by decide)⟩)

/-! ### C9: listing row skip policy -/

theorem rowRequest_none_of_missing {row : ListingRow}
    (h : truthy row.code = false ∨ truthy row.name = false ∨
      truthy row.detail_href = false) :
    rowRequest row = none := by
  rcases row with ⟨c, n, dh⟩
  simp only [truthy] at h
  cases c with
  | none => rfl
  | some c =>
    cases n with
    | none => rfl
    | some n =>
      cases dh with
      | none => rfl
      | some dh =>
        simp only [rowRequest]
        have hor : c = [] ∨ n = [] ∨ dh = [] := by
          rcases h with h | h | h <;> simp_all
        rw [if_pos hor]

/--
C9: a listing row missing any of code, name, or detail location (its lookup
returning `None` or an empty string) contributes zero detail requests: the
requests yielded by `parse_list` are exactly those of the remaining rows,
no error is raised, and the next-page link detection is unaffected.
-/
theorem parse_list_row_skip (pre post : List ListingRow) (row : ListingRow)
    (next : Option (List Char))
    (h : truthy row.code = false ∨ truthy row.name = false ∨
      truthy row.detail_href = false) :
    (parse_list ⟨pre ++ row :: post, next⟩).1 = (parse_list ⟨pre ++ post, next⟩).1 ∧
    (parse_list ⟨pre ++ row :: post, next⟩).2 = next := by
  constructor
  · show (pre ++ row :: post).filterMap rowRequest =
      (pre ++ post).filterMap rowRequest
    rw [List.filterMap_append, List.filterMap_append,
      List.filterMap_cons_none (rowRequest_none_of_missing h)]
  · rfl

/-- Concrete listing rows used to witness the skip policy. -/
def rowGood : ListingRow :=
  { code := some ("7203".data), name := some ("Alpha".data)
  , detail_href := some ("/d/7203".data) }

def rowGood2 : ListingRow :=
  { code := some ("6758".data), name := some ("Beta".data)
  , detail_href := some ("/d/6758".data) }

def rowBad : ListingRow :=
  { code := some ("9999".data), name := some [], detail_href := some ("/d/9999".data) }

theorem parse_list_row_skip_witness :
    (parse_list ⟨[rowGood] ++ rowBad :: [rowGood2], some ['n']⟩).1 =
      (parse_list ⟨[rowGood] ++ [rowGood2], some ['n']⟩).1 ∧
    (parse_list ⟨[rowGood] ++ rowBad :: [rowGood2], some ['n']⟩).2 = some ['n'] :=
  parse_list_row_skip [rowGood] [rowGood2] rowBad (some ['n'])
    (Or.inr (Or.inl (by decide)))

/-! ### C6: flush semantics -/

/--
C6: `_flush` is a no-op on an empty buffer; on a non-empty buffer with a
successful write it performs one batched upsert of all pending tuples and
clears the buffer; if the write fails the exception propagates and the
pending tuples are NOT cleared (the buffer and committed rows are
unchanged), so the batch is never silently dropped.
-/
theorem flush_spec (s : SpiderState) (writeOk : Bool) :
    (s.buf = [] → _flush s writeOk = (s, false)) ∧
    (s.buf ≠ [] → _flush s true =
      ({ s with store := upsert_many s.store s.buf
              , written := s.written ++ s.buf
              , buf := [] }, false)) ∧
    (s.buf ≠ [] → _flush s false = (s, true)) := by
  refine ⟨?_, ?_, ?_⟩
  · intro h; unfold _flush; simp [h]
  · intro h; unfold _flush; simp [h]
  · intro h; unfold _flush; simp [h]

/-- A concrete record for witnesses. -/
def recW : SnapshotRecord :=
  { target_date := "20240115".data, code := "7203".data
  , sector := "Auto".data, name := "Alpha".data, price_text := "1200".data
  , pe := "10.5".data, dividend_yield := "2.1%".data, pb := "1.1".data
  , roe := "8.0%".data, earning_yield := "9.5%".data }

/-- A second concrete record with a different code. -/
def recW2 : SnapshotRecord :=
  { target_date := "20240115".data, code := "6758".data
  , sector := "Tech".data, name := "Beta".data, price_text := "900".data
  , pe := "12.0".data, dividend_yield := "1.4%".data, pb := "2.3".data
  , roe := "11.0%".data, earning_yield := "8.3%".data }

/-- A concrete mid-run spider state with one pending record. -/
def stateW : SpiderState :=
  { target_date := some ("20240115".data), batch_size := 2
  , buf := [recW], store := [], written := [], parsed := 1, queued := 1
  , connOpen := true, schemaEnsured := true }

theorem flush_spec_witness :
    _flush (mkSpider (some ("20240115".data)) (some 2) []) true =
      (mkSpider (some ("20240115".data)) (some 2) [], false) ∧
    _flush stateW true =
      ({ stateW with store := upsert_many stateW.store stateW.buf
                   , written := stateW.written ++ stateW.buf
                   , buf := [] }, false) ∧
    _flush stateW false = (stateW, true) :=
  ⟨(flush_spec (mkSpider (some ("20240115".data)) (some 2) []) true).1 rfl,
   (flush_spec stateW true).2.1 (by decide),
   (flush_spec stateW false).2.2 (by decide)⟩

/-! ### C7: idempotent upsert -/

theorem keyMatches_self (r : SnapshotRecord) : keyMatches r r = true := by
  simp [keyMatches]

theorem filter_key_upsertRow (st : List SnapshotRecord) (r : SnapshotRecord) :
    (upsertRow st r).filter (fun q => keyMatches q r) = [r] := by
  unfold upsertRow
  rw [List.filter_append]
  have h1 : ((st.filter (fun q => ! keyMatches q r)).filter
      (fun q => keyMatches q r)) = [] := by
    rw [List.filter_filter]
    have : ∀ q : SnapshotRecord, (keyMatches q r && ! keyMatches q r) = false := by
      intro q; cases keyMatches q r <;> rfl
    simp [this]
  rw [h1]
  simp [keyMatches_self]

/--
C7: upserting a record `r` and then upserting `r` again leaves the store
with exactly one row for the key `(r.code, r.target_date)`, equal to `r` in
every column — replacement deletes every row colliding on the key before
inserting, so no duplicate rows are created.
-/
theorem upsert_twice_single_row (st : List SnapshotRecord) (r : SnapshotRecord) :
    (upsert_many (upsert_many st [r]) [r]).filter (fun q => keyMatches q r) = [r] := by
  show (upsertRow (upsertRow st r) r).filter (fun q => keyMatches q r) = [r]
  exact filter_key_upsertRow _ r

/-! ### Buffer fold lemmas (C5, C10, C1) -/

theorem upsert_many_append (st a b : List SnapshotRecord) :
    upsert_many st (a ++ b) = upsert_many (upsert_many st a) b :=
  List.foldl_append upsertRow st a b

/-- An append step below the threshold only grows the buffer and the
parsed counter. -/
theorem appendRecord_below (s : SpiderState) (r : SnapshotRecord)
    (h : s.buf.length + 1 < s.batch_size) :
    appendRecord s r = { s with buf := s.buf ++ [r], parsed := s.parsed + 1 } := by
  unfold appendRecord
  have hc : ¬ (s.batch_size ≤ (s.buf ++ [r]).length) := by
    simp only [List.length_append, List.length_cons, List.length_nil]
    omega
  simp only [if_neg hc]

/-- An append step reaching the threshold flushes: the whole buffer
(including the new record) is upserted and the buffer is cleared. -/
theorem appendRecord_at_threshold (s : SpiderState) (r : SnapshotRecord)
    (h : s.batch_size ≤ s.buf.length + 1) :
    appendRecord s r = { s with buf := []
                              , store := upsert_many s.store (s.buf ++ [r])
                              , written := s.written ++ (s.buf ++ [r])
                              , parsed := s.parsed + 1 } := by
  unfold appendRecord
  have hc : s.batch_size ≤ (s.buf ++ [r]).length := by
    simp only [List.length_append, List.length_cons, List.length_nil]
    omega
  simp only [if_pos hc]
  unfold _flush
  have hne : (s.buf ++ [r]).isEmpty = false := by simp
  simp [hne]

/-- Folding appends that stay strictly below the threshold never flushes:
the records pile up in the buffer and nothing reaches the store. -/
theorem foldl_no_flush (rs : List SnapshotRecord) : ∀ (s : SpiderState),
    s.buf.length + rs.length < s.batch_size →
    (rs.foldl appendRecord s).buf = s.buf ++ rs ∧
    (rs.foldl appendRecord s).written = s.written ∧
    (rs.foldl appendRecord s).store = s.store ∧
    (rs.foldl appendRecord s).parsed = s.parsed + rs.length ∧
    (rs.foldl appendRecord s).batch_size = s.batch_size := by
  induction rs with
  | nil => intro s h; simp
  | cons r rs ih =>
    intro s h
    simp only [List.length_cons] at h
    rw [List.foldl_cons, appendRecord_below s r (by omega)]
    obtain ⟨h1, h2, h3, h4, h5⟩ :=
      ih { s with buf := s.buf ++ [r], parsed := s.parsed + 1 }
        (by simp only [List.length_append, List.length_cons, List.length_nil]; omega)
    refine ⟨?_, h2, h3, ?_, h5⟩
    · rw [h1]; simp
    · rw [h4]
      show s.parsed + 1 + rs.length = s.parsed + (r :: rs).length
      simp only [List.length_cons]
      omega

/-- Folding exactly `batch_size` appends into an empty buffer triggers the
flush on the last append: everything reaches the store and the buffer ends
empty. -/
theorem foldl_exact (rs : List SnapshotRecord) (s : SpiderState)
    (h0 : s.buf = []) (hlen : rs.length = s.batch_size)
    (hpos : 0 < s.batch_size) :
    (rs.foldl appendRecord s).buf = [] ∧
    (rs.foldl appendRecord s).written = s.written ++ rs ∧
    (rs.foldl appendRecord s).store = upsert_many s.store rs ∧
    (rs.foldl appendRecord s).parsed = s.parsed + rs.length := by
  have hne : rs ≠ [] := by
    intro h
    rw [h] at hlen
    simp at hlen
    omega
  have hsplit : rs.dropLast ++ [rs.getLast hne] = rs :=
    List.dropLast_append_getLast hne
  have hdll : rs.dropLast.length = rs.length - 1 := List.length_dropLast rs
  have hfold : rs.foldl appendRecord s =
      appendRecord (rs.dropLast.foldl appendRecord s) (rs.getLast hne) := by
    conv_lhs => rw [← hsplit]
    rw [List.foldl_append]
    rfl
  obtain ⟨hb, hw, hst, hp, hbs⟩ := foldl_no_flush rs.dropLast s
    (by rw [h0]; simp only [List.length_nil, hdll, hlen]; omega)
  have hthresh : (rs.dropLast.foldl appendRecord s).batch_size ≤
      (rs.dropLast.foldl appendRecord s).buf.length + 1 := by
    rw [hbs, hb, h0]
    simp only [List.nil_append]
    omega
  rw [hfold, appendRecord_at_threshold _ _ hthresh]
  have hbufeq : (rs.dropLast.foldl appendRecord s).buf ++ [rs.getLast hne] = rs := by
    rw [hb, h0, List.nil_append]
    exact hsplit
  refine ⟨rfl, ?_, ?_, ?_⟩
  · simp only [hbufeq, hw]
  · simp only [hbufeq, hst]
  · simp only [hp]
    omega

/-- The constructor `mkSpider` adopts a positive explicit batch size verbatim. -/
theorem mkSpider_batch_size (td : Option (List Char)) (st0 : List SnapshotRecord)
    (N : Nat) (hpos : 0 < N) :
    (mkSpider td (some (N : Int)) st0).batch_size = N := by
  show normBatchSize (some (N : Int)) = N
  simp only [normBatchSize]
  rw [if_neg (by omega)]
  omega

/--
C5: with `batch_size = N`, appending exactly `N` records (without any
manual flush) hands exactly those `N` rows to the store, upserts them, and
leaves the buffer empty; appending only `N − 1` records hands the store
nothing from this invocation (its rows are unchanged) and all of them stay
pending.
-/
theorem batch_threshold (N : Nat) (rs rs2 : List SnapshotRecord)
    (td : List Char) (st0 : List SnapshotRecord)
    (hpos : 0 < N) (hN : rs.length = N) (hN2 : rs2.length = N - 1) :
    ((rs.foldl appendRecord (mkSpider (some td) (some (N : Int)) st0)).written = rs ∧
     (rs.foldl appendRecord (mkSpider (some td) (some (N : Int)) st0)).store =
       upsert_many st0 rs ∧
     (rs.foldl appendRecord (mkSpider (some td) (some (N : Int)) st0)).buf = []) ∧
    ((rs2.foldl appendRecord (mkSpider (some td) (some (N : Int)) st0)).written = [] ∧
     (rs2.foldl appendRecord (mkSpider (some td) (some (N : Int)) st0)).store = st0 ∧
     (rs2.foldl appendRecord (mkSpider (some td) (some (N : Int)) st0)).buf = rs2) := by
  have hbs := mkSpider_batch_size (some td) st0 N hpos
  constructor
  · obtain ⟨h1, h2, h3, _⟩ := foldl_exact rs (mkSpider (some td) (some (N : Int)) st0)
      rfl (by rw [hbs, hN]) (by rw [hbs]; exact hpos)
    exact ⟨by rw [h2]; rfl, by rw [h3]; rfl, h1⟩
  · obtain ⟨h1, h2, h3, _, _⟩ := foldl_no_flush rs2 (mkSpider (some td) (some (N : Int)) st0)
      (by rw [hbs]; simp only [mkSpider]; simp; omega)
    exact ⟨by rw [h2]; rfl, by rw [h3]; rfl, by rw [h1]; rfl⟩

theorem batch_threshold_witness :
    ((([recW, recW2] : List SnapshotRecord).foldl appendRecord
        (mkSpider (some ("20240115".data)) (some (2 : Int)) [])).written = [recW, recW2] ∧
     (([recW, recW2] : List SnapshotRecord).foldl appendRecord
        (mkSpider (some ("20240115".data)) (some (2 : Int)) [])).store =
       upsert_many [] [recW, recW2] ∧
     (([recW, recW2] : List SnapshotRecord).foldl appendRecord
        (mkSpider (some ("20240115".data)) (some (2 : Int)) [])).buf = []) ∧
    ((([recW] : List SnapshotRecord).foldl appendRecord
        (mkSpider (some ("20240115".data)) (some (2 : Int)) [])).written = [] ∧
     (([recW] : List SnapshotRecord).foldl appendRecord
        (mkSpider (some ("20240115".data)) (some (2 : Int)) [])).store = [] ∧
     (([recW] : List SnapshotRecord).foldl appendRecord
        (mkSpider (some ("20240115".data)) (some (2 : Int)) [])).buf = [recW]) :=
  batch_threshold 2 [recW, recW2] [recW] "20240115".data []
    (by decide) (by decide) (by decide)

/-! ### C10: the pending buffer stays below the threshold -/

/--
C10: every detail-processing step preserves the invariant that fewer than
`batch_size` records are pending: starting from a state satisfying it, the
append-with-conditional-flush step of `parse_detail` ends with the buffer
strictly below the threshold (the buffer gains exactly the one built
record and is emptied the moment it reaches `batch_size`), and the
threshold itself never changes.
-/
theorem parse_detail_buffer_invariant (s : SpiderState) (code nm : List Char)
    (doc : DetailDoc) (hpos : 0 < s.batch_size)
    (_hinv : s.buf.length < s.batch_size) :
    (parse_detail s code nm doc).buf.length < s.batch_size ∧
    (parse_detail s code nm doc).batch_size = s.batch_size ∧
    (parse_detail s code nm doc).parsed = s.parsed + 1 := by
  unfold parse_detail
  by_cases hc : s.batch_size ≤ s.buf.length + 1
  · rw [appendRecord_at_threshold s _ hc]
    exact ⟨by simpa using hpos, rfl, rfl⟩
  · rw [appendRecord_below s _ (by omega)]
    refine ⟨?_, rfl, rfl⟩
    simp only [List.length_append, List.length_cons, List.length_nil]
    omega

theorem parse_detail_buffer_invariant_witness :
    (parse_detail stateW ['a'] ['b'] docW).buf.length < stateW.batch_size ∧
    (parse_detail stateW ['a'] ['b'] docW).batch_size = stateW.batch_size ∧
    (parse_detail stateW ['a'] ['b'] docW).parsed = stateW.parsed + 1 :=
  parse_detail_buffer_invariant stateW ['a'] ['b'] docW (by decide) (by decide)

/-! ### C1: unconditional drain and close on termination -/

/-- Invariant of the append fold: the rows handed to the store plus the
pending buffer are exactly the initial ones plus every appended record, the
store tracks the handed-over rows, and the connection stays open. -/
theorem foldl_append_invariant (rs : List SnapshotRecord) : ∀ (s : SpiderState),
    (rs.foldl appendRecord s).written ++ (rs.foldl appendRecord s).buf =
      s.written ++ s.buf ++ rs ∧
    (rs.foldl appendRecord s).connOpen = s.connOpen ∧
    (rs.foldl appendRecord s).parsed = s.parsed + rs.length ∧
    (∀ st0, s.store = upsert_many st0 s.written →
      (rs.foldl appendRecord s).store =
        upsert_many st0 (rs.foldl appendRecord s).written) := by
  induction rs with
  | nil => intro s; simp
  | cons r rs ih =>
    intro s
    rw [List.foldl_cons]
    by_cases hc : s.batch_size ≤ s.buf.length + 1
    · rw [appendRecord_at_threshold s r hc]
      obtain ⟨ih1, ih2, ih3, ih4⟩ :=
        ih { s with buf := []
                  , store := upsert_many s.store (s.buf ++ [r])
                  , written := s.written ++ (s.buf ++ [r])
                  , parsed := s.parsed + 1 }
      refine ⟨?_, ih2, ?_, ?_⟩
      · rw [ih1]
        show s.written ++ (s.buf ++ [r]) ++ [] ++ rs = s.written ++ s.buf ++ (r :: rs)
        simp
      · rw [ih3]
        show s.parsed + 1 + rs.length = s.parsed + (r :: rs).length
        simp only [List.length_cons]
        omega
      · intro st0 hst0
        refine ih4 st0 ?_
        show upsert_many s.store (s.buf ++ [r]) =
          upsert_many st0 (s.written ++ (s.buf ++ [r]))
        rw [hst0, ← upsert_many_append]
    · rw [appendRecord_below s r (by omega)]
      obtain ⟨ih1, ih2, ih3, ih4⟩ :=
        ih { s with buf := s.buf ++ [r], parsed := s.parsed + 1 }
      refine ⟨?_, ih2, ?_, ?_⟩
      · rw [ih1]
        show s.written ++ (s.buf ++ [r]) ++ rs = s.written ++ s.buf ++ (r :: rs)
        simp
      · rw [ih3]
        show s.parsed + 1 + rs.length = s.parsed + (r :: rs).length
        simp only [List.length_cons]
        omega
      · intro st0 hst0
        exact ih4 st0 hst0

/-- The shutdown `closed` is exactly flush-then-release: every field of the final state
is the corresponding field of the flushed state, with the connection
handle released. -/
theorem closed_fields (s : SpiderState) (reason : List Char) (wOk : Bool) :
    (closed s reason wOk).connOpen = false ∧
    (closed s reason wOk).written = ((_flush s wOk).1).written ∧
    (closed s reason wOk).buf = ((_flush s wOk).1).buf ∧
    (closed s reason wOk).store = ((_flush s wOk).1).store ∧
    (closed s reason wOk).parsed = ((_flush s wOk).1).parsed := by
  unfold closed
  exact ⟨rfl, rfl, rfl, rfl, rfl⟩

theorem upsert_many_nil (st : List SnapshotRecord) : upsert_many st [] = st := rfl

/-- A successful flush hands over the whole buffer (also when it is empty,
in which case the flush is a no-op). -/
theorem flush_true_fields (s : SpiderState) :
    ((_flush s true).1).written = s.written ++ s.buf ∧
    ((_flush s true).1).buf = [] ∧
    ((_flush s true).1).store = upsert_many s.store s.buf ∧
    ((_flush s true).1).parsed = s.parsed := by
  unfold _flush
  by_cases h : s.buf.isEmpty
  · have hb : s.buf = [] := by simpa using h
    simp [h, hb, upsert_many_nil]
  · simp [h]

/--
C1: for every run (any sequence of appended records), any termination
reason, and any write outcome, the shutdown step releases the store handle;
with the final write succeeding, the drain flushes the remaining buffer
(even when it is empty, the flush step still runs as a no-op), after which
the rows the store received are exactly the records built — none pending,
none lost — and the table holds their upsert.  No termination path reaches
a closed connection without having gone through the flush.
-/
theorem closed_drain_guarantee (rs : List SnapshotRecord) (td : List Char)
    (bs : Option Int) (st0 : List SnapshotRecord) (reason : List Char) :
    ((closed ((rs.foldl appendRecord (mkSpider (some td) bs st0))) reason true).written = rs ∧
     (closed ((rs.foldl appendRecord (mkSpider (some td) bs st0))) reason true).buf = [] ∧
     (closed ((rs.foldl appendRecord (mkSpider (some td) bs st0))) reason true).store =
       upsert_many st0 rs ∧
     (closed ((rs.foldl appendRecord (mkSpider (some td) bs st0))) reason true).parsed =
       rs.length ∧
     (closed ((rs.foldl appendRecord (mkSpider (some td) bs st0))) reason true).connOpen =
       false) ∧
    (∀ (s : SpiderState) (wOk : Bool), (closed s reason wOk).connOpen = false) := by
  obtain ⟨h1, _, h3, h4⟩ :=
    foldl_append_invariant rs (mkSpider (some td) bs st0)
  have h4' := h4 st0 rfl
  set t := rs.foldl appendRecord (mkSpider (some td) bs st0) with ht
  have h1' : t.written ++ t.buf = rs := by
    rw [h1]
    show ([] : List SnapshotRecord) ++ [] ++ rs = rs
    simp
  have h3' : t.parsed = rs.length := by
    rw [h3]
    show 0 + rs.length = rs.length
    omega
  obtain ⟨c1, c2, c3, c4, c5⟩ := closed_fields t reason true
  obtain ⟨f1, f2, f3, f4⟩ := flush_true_fields t
  refine ⟨⟨?_, ?_, ?_, ?_, c1⟩, ?_⟩
  · rw [c2, f1, h1']
  · rw [c3, f2]
  · rw [c4, f3, h4', ← upsert_many_append, h1']
  · rw [c5, f4, h3']
  · intro s wOk
    exact (closed_fields s reason wOk).1

end MetricsSnapshot
